import Mathlib

/-!
Shallow embedding of the Google Maps scraper (`src/scraper.py`, `src/config.py`)
and verification of its natural-language specification.

Strings are handled as `List Char` internally (mirroring Python's per-character
regex scanning), with `String` wrappers matching the Python function signatures.
Python `re` patterns are embedded as deterministic character scanners; wherever a
pattern's backtracking collapses to a deterministic scan, a comment justifies the
collapse.  Character classes (`\d`, `\s`, `\w`) are embedded over the character
repertoire actually occurring in this code base (ASCII plus the accented letters
of the Portuguese street vocabulary).
-/

namespace Scraper

/-! ### Configuration constants (src/config.py) -/

/-- Maximum number of establishments collected per category
(`config.MAX_RESULTADOS_POR_TIPO`). -/
def MAX_RESULTADOS_POR_TIPO : Nat := 20

/-- Maximum number of scroll iterations (`config.MAX_SCROLLS`). -/
def MAX_SCROLLS : Nat := 5

/-! ### Character classes -/

/-- Python regex `\d` (inputs here are ASCII digits). -/
def pyDigit (c : Char) : Bool := c.isDigit

/-- Python regex `\s` (the ASCII whitespace set; the card texts handled by the
scraper contain no non-ASCII whitespace). -/
def pySpace (c : Char) : Bool :=
  c = ' ' || c = '\t' || c = '\n' || c = '\r' || c = '\x0b' || c = '\x0c'

/-- Python regex `\w` for word boundaries, over the repertoire used by the
street vocabulary of this scraper (ASCII word characters plus `ç`/`Ç`). -/
def pyWord (c : Char) : Bool :=
  c.isAlphanum || c = '_' || c = 'ç' || c = 'Ç'

/-- Python `str.strip` on a character list (whitespace at both ends). -/
def stripChars (l : List Char) : List Char :=
  ((l.dropWhile pySpace).reverse.dropWhile pySpace).reverse

/-- Python `str.strip` on a `String`. -/
def pyStrip (s : String) : String := ⟨stripChars s.data⟩

/-! ### Generic leftmost regex search

`re.search` tries each start position from the left and returns the first
match.  `scanFirst f cs` runs the position matcher `f` on every suffix of
`cs` (including the empty suffix, as `re.search` also tries the position at
the end of the string) and returns the first hit. -/

/-- Leftmost-match search: try the matcher on each suffix, leftmost first. -/
def scanFirst (f : List Char → Option α) : List Char → Option α
  | [] => f []
  | c :: rest =>
    match f (c :: rest) with
    | some g => some g
    | none => scanFirst f rest

/-- Boolean variant of `scanFirst`: does any suffix match? -/
def reContains (p : List Char → Bool) : List Char → Bool
  | [] => p []
  | c :: rest => p (c :: rest) || reContains p rest

/-! ### Rating extractor (`_extract_rating`, scraper.py lines 361-385) -/

/-- The two decimal separators accepted by the rating patterns (`[,\.]`). -/
def ratingSep (c : Char) : Bool := c = ',' || c = '.'

/-- Match of `(\d[,\.]\d)\s*\(` at the head of the list, returning the
captured group.  `\s*` is greedy, but `(` is not a whitespace character, so
backtracking can never move the `\(` inside the whitespace run: the pattern
matches exactly when the first non-whitespace character after the pair
is `(`. -/
def ratingPrimaryAt : List Char → Option (List Char)
  | d1 :: s :: d2 :: rest =>
    if pyDigit d1 && ratingSep s && pyDigit d2 then
      match rest.dropWhile pySpace with
      | '(' :: _ => some [d1, s, d2]
      | _ => none
    else none
  | _ => none

/-- Match of `\d[,\.]\d` at the head of the list (capture of the fallback
pattern). -/
def ratingPairAt : List Char → Option (List Char)
  | d1 :: s :: d2 :: _ =>
    if pyDigit d1 && ratingSep s && pyDigit d2 then some [d1, s, d2] else none
  | _ => none

/-- Leftmost search of `(?:^|\n)(\d[,\.]\d)` (no MULTILINE flag, so `^` only
matches at the very start).  At each position the engine first tries the
zero-width `^` alternative (only available at the start, tracked by the
flag) and then the literal `\n` alternative. -/
def findRatingFallback : Bool → List Char → Option (List Char)
  | _, [] => none
  | atStart, c :: rest =>
    match (if atStart then ratingPairAt (c :: rest) else none) with
    | some g => some g
    | none =>
      match (if c = '\n' then ratingPairAt rest else none) with
      | some g => some g
      | none => findRatingFallback false rest

/-- Python `str.replace('.', ',')` on a character list. -/
def dotToComma (l : List Char) : List Char :=
  l.map fun c => if c = '.' then ',' else c

/-- Embedding of `_extract_rating`: primary pattern `(\d[,\.]\d)\s*\(`,
fallback `(?:^|\n)(\d[,\.]\d)`, both normalized with `.replace('.', ',')`,
sentinel `"N/A"` otherwise. -/
def extract_rating (text : String) : String :=
  match scanFirst ratingPrimaryAt text.data with
  | some g => ⟨dotToComma g⟩
  | none =>
    match findRatingFallback true text.data with
    | some g => ⟨dotToComma g⟩
    | none => "N/A"

/-! ### Review-count extractor (`_extract_reviews`, scraper.py lines 388-407) -/

/-- The character class `[0-9.]` of the review-count pattern. -/
def revDigitDot (c : Char) : Bool := pyDigit c || c = '.'

/-- Match of `\(([0-9][0-9.]*)\)` at the head of the list, returning the
captured group.  `[0-9.]*` is greedy; `)` is not in the class `[0-9.]`, so
backtracking cannot help: the pattern matches exactly when the character
right after the maximal digit-and-dot run is `)`. -/
def reviewsAt : List Char → Option (List Char)
  | '(' :: d :: rest =>
    if pyDigit d then
      let run := rest.takeWhile revDigitDot
      match rest.drop run.length with
      | ')' :: _ => some (d :: run)
      | _ => none
    else none
  | _ => none

/-- Embedding of `_extract_reviews`: first parenthesized digit-and-dot group,
verbatim; sentinel `"N/A"` otherwise. -/
def extract_reviews (text : String) : String :=
  match scanFirst reviewsAt text.data with
  | some g => ⟨g⟩
  | none => "N/A"

/-! ### Raw address extractor (`_extract_address`, scraper.py lines 410-474) -/

/-- Python `text.split(sep)` for a one-character separator. -/
def splitOnChar (sep : Char) : List Char → List (List Char)
  | [] => [[]]
  | c :: rest =>
    if c = sep then [] :: splitOnChar sep rest
    else
      match splitOnChar sep rest with
      | [] => [[c]]
      | g :: gs => (c :: g) :: gs

/-- The non-empty stripped lines of the card text
(`[line.strip() for line in text.split('\n') if line.strip()]`). -/
def cardLines (text : String) : List String :=
  (((splitOnChar '\n' text.data).map fun l => stripChars l).filter
      fun l => l ≠ []).map fun l => ⟨l⟩

/-- Match at a position of a literal followed by one `\s` character (the
shape of the patterns `R\.\s`, `Rua\s`, ... in `address_patterns`). -/
def litThenWsAt (lit : List Char) (l : List Char) : Bool :=
  lit.isPrefixOf l &&
    match l.drop lit.length with
    | c :: _ => pySpace c
    | [] => false

/-- Match at a position of the CEP pattern `\d{5}-?\d{3}`.  The greedy `-?`
first tries to consume a dash; when the dash branch fails because fewer than
3 digits follow, the dashless branch starts at the dash and fails on `\d` as
well, so the two explicit arms below cover the backtracking exactly. -/
def cepAt : List Char → Bool
  | d1 :: d2 :: d3 :: d4 :: d5 :: rest =>
    (pyDigit d1 && pyDigit d2 && pyDigit d3 && pyDigit d4 && pyDigit d5) &&
      (match rest with
       | '-' :: e1 :: e2 :: e3 :: _ => pyDigit e1 && pyDigit e2 && pyDigit e3
       | e1 :: e2 :: e3 :: _ => pyDigit e1 && pyDigit e2 && pyDigit e3
       | _ => false)
  | _ => false

/-- One line hits `address_patterns` (the fifteen patterns of scraper.py
lines 431-447, searched in source order; the order only selects which
pattern matched, which the code never uses). -/
def addressLineHit (cs : List Char) : Bool :=
  reContains (litThenWsAt ['R', '.']) cs ||
  reContains (litThenWsAt ['A', 'v', '.']) cs ||
  reContains (litThenWsAt ['A', 'l', '.']) cs ||
  reContains (litThenWsAt ['T', 'v', '.']) cs ||
  reContains (litThenWsAt ['P', 'ç', '.']) cs ||
  reContains (litThenWsAt ['R', 'o', 'd', '.']) cs ||
  reContains (litThenWsAt ['E', 's', 't', 'r', '.']) cs ||
  reContains cepAt cs ||
  reContains (litThenWsAt ['R', 'u', 'a']) cs ||
  reContains (litThenWsAt ['A', 'v', 'e', 'n', 'i', 'd', 'a']) cs ||
  reContains (litThenWsAt ['A', 'l', 'a', 'm', 'e', 'd', 'a']) cs ||
  reContains (litThenWsAt ['P', 'r', 'a', 'ç', 'a']) cs ||
  reContains (litThenWsAt ['T', 'r', 'a', 'v', 'e', 's', 's', 'a']) cs ||
  reContains (litThenWsAt ['R', 'o', 'd', 'o', 'v', 'i', 'a']) cs ||
  reContains (litThenWsAt ['E', 's', 't', 'r', 'a', 'd', 'a']) cs

/-- Lowercased literals of the operating-hours/status pattern
`(Aberto|Fechado|Fecha|Abre|24 horas|Delivery|Retirada)` with `IGNORECASE`. -/
def hoursWords : List (List Char) :=
  [['a', 'b', 'e', 'r', 't', 'o'], ['f', 'e', 'c', 'h', 'a', 'd', 'o'],
   ['f', 'e', 'c', 'h', 'a'], ['a', 'b', 'r', 'e'],
   ['2', '4', ' ', 'h', 'o', 'r', 'a', 's'],
   ['d', 'e', 'l', 'i', 'v', 'e', 'r', 'y'],
   ['r', 'e', 't', 'i', 'r', 'a', 'd', 'a']]

/-- Case-insensitive hit of the operating-hours/status vocabulary. -/
def hoursLine (cs : List Char) : Bool :=
  let low := cs.map Char.toLower
  hoursWords.any fun w => reContains (fun l => w.isPrefixOf l) low

/-- `re.match(r'^\d[,\.]\d$', line)`: the line is exactly a
digit-separator-digit pair (`$` also accepts a single trailing newline,
which stripped lines never contain). -/
def ratingOnlyLine : List Char → Bool
  | [d1, s, d2] => pyDigit d1 && ratingSep s && pyDigit d2
  | [d1, s, d2, '\n'] => pyDigit d1 && ratingSep s && pyDigit d2
  | _ => false

/-- The first `for line in lines` loop of `_extract_address`. -/
def findAddressLine : List String → Option String
  | [] => none
  | l :: rest =>
    if addressLineHit l.data then some l else findAddressLine rest

/-- The fallback `for line in reversed(lines[-4:])` loop of
`_extract_address` (argument already reversed). -/
def fallbackScan : List String → Option String
  | [] => none
  | l :: rest =>
    if hoursLine l.data then fallbackScan rest
    else if ratingOnlyLine l.data then fallbackScan rest
    else if 10 < l.length then some l
    else fallbackScan rest

/-- Embedding of `_extract_address`: first line hitting an address pattern;
otherwise, when there are at least 3 lines, the first of the last 4 lines in
reverse order that is neither an hours/status line nor a pure rating pair
and is longer than 10 characters; otherwise `"N/A"`. -/
def extract_address (text : String) : String :=
  let lines := cardLines text
  match findAddressLine lines with
  | some l => l
  | none =>
    if 3 ≤ lines.length then
      match fallbackScan (lines.drop (lines.length - 4)).reverse with
      | some l => l
      | none => "N/A"
    else "N/A"

/-! ### Address normalizer (`_clean_address`, scraper.py lines 477-557) -/

/-- The alternatives of `street_re` in source order (scraper.py
lines 504-507). -/
def streetAlternatives : List (List Char) :=
  [['R', '.'], ['A', 'v', '.'], ['A', 'l', '.'], ['T', 'v', '.'],
   ['P', 'ç', '.'], ['R', 'o', 'd', '.'], ['E', 's', 't', 'r', '.'],
   ['R', 'u', 'a'], ['A', 'v', 'e', 'n', 'i', 'd', 'a'],
   ['A', 'l', 'a', 'm', 'e', 'd', 'a'], ['P', 'r', 'a', 'ç', 'a'],
   ['T', 'r', 'a', 'v', 'e', 's', 's', 'a'],
   ['R', 'o', 'd', 'o', 'v', 'i', 'a'], ['E', 's', 't', 'r', 'a', 'd', 'a']]

/-- Match of one `street_re` alternative at a position, returning the rest
after it.  At most one alternative can match at a given position (all pairs
of alternatives differ within their common length), so trying them in source
order is deterministic. -/
def streetAt (l : List Char) : Option (List Char) :=
  (streetAlternatives.find? fun alt => alt.isPrefixOf l).map
    fun alt => l.drop alt.length

/-- `re.search(street_re, part)` as a Boolean. -/
def containsStreet (cs : List Char) : Bool :=
  reContains (fun l => (streetAt l).isSome) cs

/-- The character class `[\d\s]` of the inversion pattern's first group. -/
def digitOrWs (c : Char) : Bool := pyDigit c || pySpace c

/-- End-of-pattern `$` (end of string, or just before a final newline). -/
def dollarEnd : List Char → Bool
  | [] => true
  | ['\n'] => true
  | _ => false

/-- `.+$` at a position: `.` never matches a newline, and giving back
characters from the greedy `.+` run only ever exposes non-newline characters
to `$`, so the pattern matches exactly when the maximal newline-free run is
non-empty and reaches `$`. -/
def dotPlusDollar (l : List Char) : Bool :=
  let m := (l.takeWhile fun c => c ≠ '\n').length
  decide (1 ≤ m) && dollarEnd (l.drop m)

/-- `\s+.+$` at a position: the greedy `\s+` takes `w - k` characters for
some backtracking depth `k`, needing at least one. -/
def wsDotTail (l : List Char) : Bool :=
  let w := (l.takeWhile pySpace).length
  (List.range w).any fun k => dotPlusDollar (l.drop (w - k))

/-- Does `\s+{street_re}\s+.+$` match the whole rest (the part of the
inversion pattern after the lazy first group)?  The street alternatives all
start with a letter, so the greedy `\s+` before them can only stop at the
first non-whitespace character. -/
def invTail (rest : List Char) : Bool :=
  let j := (rest.takeWhile pySpace).length
  decide (1 ≤ j) &&
    match streetAt (rest.drop j) with
    | none => false
    | some after => wsDotTail after

/-- The text captured by the second group `({street_re}\s+.+)` when
`invTail rest` holds: everything from the street word up to `$`, which is
the end of the rest except for a final newline. -/
def invGroup2 (rest : List Char) : List Char :=
  let j := (rest.takeWhile pySpace).length
  let tail := rest.drop j
  if tail.getLast? = some '\n' then tail.dropLast else tail

/-- Lazy extension of the first group `(\d[\d\s]*?)`: starting from the
shortest candidate, extend one `[\d\s]` character at a time until the rest
of the pattern matches.  Returns the two captured groups. -/
def invExtend : List Char → List Char → Option (List Char × List Char)
  | acc, [] => if invTail [] then some (acc, invGroup2 []) else none
  | acc, c :: rest2 =>
    if invTail (c :: rest2) then some (acc, invGroup2 (c :: rest2))
    else if digitOrWs c then invExtend (acc ++ [c]) rest2
    else none

/-- `re.match(rf'^(\d[\d\s]*?)\s+({street_re}\s+.+)$', address)`, returning
the captured (house-number, street-and-rest) groups. -/
def invMatch (cs : List Char) : Option (List Char × List Char) :=
  match cs with
  | [] => none
  | c :: rest => if pyDigit c then invExtend [c] rest else none

/-- `re.sub(r'\s*:\s*', ' ', address)`.  A match starts at the first
character of a whitespace run followed by `:` (or at a bare `:`), consumes
the colon and the following whitespace run, and is replaced by one space;
scanning resumes right after.  Mode `false` scans normally carrying the
pending (reversed) whitespace run; mode `true` consumes the whitespace
following a just-replaced colon. -/
def subColonGo : Bool → List Char → List Char → List Char
  | false, pending, [] => pending.reverse
  | false, pending, c :: rest =>
    if pySpace c then subColonGo false (c :: pending) rest
    else if c = ':' then ' ' :: subColonGo true [] rest
    else pending.reverse ++ c :: subColonGo false [] rest
  | true, _, [] => []
  | true, _, c :: rest =>
    if pySpace c then subColonGo true [] rest
    else if c = ':' then ' ' :: subColonGo true [] rest
    else c :: subColonGo false [] rest

/-- `re.sub(r'\s*:\s*', ' ', ·)`. -/
def subColon (l : List Char) : List Char := subColonGo false [] l

/-- `re.sub(r'\s+', ' ', ·)`: collapse each maximal whitespace run to one
space.  The flag records whether the previous character was whitespace. -/
def collapseWsGo : Bool → List Char → List Char
  | _, [] => []
  | inRun, c :: rest =>
    if pySpace c then
      if inRun then collapseWsGo true rest else ' ' :: collapseWsGo true rest
    else c :: collapseWsGo false rest

/-- `re.sub(r'\s+', ' ', ·)`. -/
def collapseWs (l : List Char) : List Char := collapseWsGo false l

/-- Word-boundary test after a candidate match of `w` at the head of `l`. -/
def boundaryAfter (w l : List Char) : Bool :=
  match l.drop w.length with
  | [] => true
  | d :: _ => !pyWord d

/-- `re.sub(rf'\b{w}\b', r, ·)` for a non-empty word `w` made of word
characters (all seven abbreviation patterns are).  `prev` records whether
the previous character of the original string is a word character (so `\b`
holds before a candidate match exactly when `prev` is false); after a
replacement, scanning resumes in the original string right after `w`, whose
last character is a word character.  `fuel` bounds the number of characters
still to be consumed; every step consumes at least one, and `subWord` below
supplies `l.length`, so the fuel never runs out. -/
def subWordGo (w r : List Char) : Nat → Bool → List Char → List Char
  | 0, _, l => l
  | fuel + 1, prev, l =>
    match l with
    | [] => []
    | c :: rest =>
      if !w.isEmpty && !prev && w.isPrefixOf (c :: rest) && boundaryAfter w (c :: rest) then
        r ++ subWordGo w r fuel true ((c :: rest).drop w.length)
      else c :: subWordGo w r fuel (pyWord c) rest

/-- Word-boundary-safe global substitution (`re.sub(rf'\b{w}\b', r, ·)`). -/
def subWord (w r l : List Char) : List Char := subWordGo w r l.length false l

/-- The abbreviation table of `_clean_address` (scraper.py lines 545-553),
in insertion order. -/
def abbrevTable : List (List Char × List Char) :=
  [(['R', 'u', 'a'], ['R', '.']),
   (['A', 'v', 'e', 'n', 'i', 'd', 'a'], ['A', 'v', '.']),
   (['A', 'l', 'a', 'm', 'e', 'd', 'a'], ['A', 'l', '.']),
   (['T', 'r', 'a', 'v', 'e', 's', 's', 'a'], ['T', 'v', '.']),
   (['P', 'r', 'a', 'ç', 'a'], ['P', 'ç', '.']),
   (['R', 'o', 'd', 'o', 'v', 'i', 'a'], ['R', 'o', 'd', '.']),
   (['E', 's', 't', 'r', 'a', 'd', 'a'], ['E', 's', 't', 'r', '.'])]

/-- Step 4 of `_clean_address`: apply all abbreviation substitutions in
table order. -/
def applyAbbrevs (l : List Char) : List Char :=
  abbrevTable.foldl (fun acc pr => subWord pr.1 pr.2 acc) l

/-- Embedding of `_clean_address`. -/
def clean_address (raw_address : String) : String :=
  if raw_address = "" ∨ raw_address = "N/A" then raw_address
  else
    let parts := (((splitOnChar '·' raw_address.data).map fun l => stripChars l).filter
      fun l => l ≠ [])
    let address₁ :=
      match parts.find? fun p => containsStreet p with
      | some p => p
      | none =>
        match parts.reverse.find? fun p => p.any pyDigit with
        | some p => p
        | none =>
          match parts.getLast? with
          | some p => p
          | none => raw_address.data
    let address₂ :=
      match invMatch address₁ with
      | some (g1, g2) => stripChars g2 ++ ',' :: ' ' :: stripChars g1
      | none => address₁
    let address₃ := stripChars (collapseWs (subColon address₂))
    ⟨applyAbbrevs address₃⟩

/-! ### Scroll controller (`scroll_results`, scraper.py lines 169-218)

The external browser driver is modelled by its visible effects on the loop:
`scrollFault i` tells whether the scroll command of iteration `i` raises a
`WebDriverException`, and `readHeight i` yields the container extent read in
iteration `i` (`none` meaning the read raises).  A raised exception aborts
the loop and is caught by the surrounding handler. -/

/-- The `for i in range(MAX_SCROLLS)` loop body of `scroll_results`:
scroll (may fault), increment `scrolls_done`, read the extent (may fault),
break when the extent equals the previous one.  Returns `none` when a
driver fault escaped the loop, `some scrolls_done` otherwise. -/
def scrollLoopAux (scrollFault : Nat → Bool) (readHeight : Nat → Option Nat) :
    Nat → Nat → Nat → Nat → Option Nat
  | 0, _, _, done => some done
  | fuel + 1, i, prev, done =>
    if scrollFault i then none
    else
      match readHeight i with
      | none => none
      | some h =>
        if h = prev then some (done + 1)
        else scrollLoopAux scrollFault readHeight fuel (i + 1) h (done + 1)

/-- Embedding of `scroll_results`.  `feedFound = false` models the
`NoSuchElementException` of the initial `find_element` (handler returns 0);
a `none` from the loop models a `WebDriverException` during scrolling
(handler also returns 0).  The returned number equals the number of scroll
commands issued (`scrolls_done`). -/
def scroll_results (feedFound : Bool) (maxScrolls : Nat)
    (scrollFault : Nat → Bool) (readHeight : Nat → Option Nat) : Nat :=
  if feedFound then
    match scrollLoopAux scrollFault readHeight maxScrolls 0 0 0 with
    | some n => n
    | none => 0
  else 0

/-! ### Record builder and extraction loop
(`_extract_single_result` / `extract_results`, scraper.py lines 225-358) -/

/-- One collected establishment record (the dict built at scraper.py
lines 352-358). -/
structure Listing where
  nome : String
  tipo : String
  nota : String
  avaliacoes : String
  endereco : String
deriving DecidableEq

/-- A card handle as seen by `_extract_single_result`: the `aria-label` of
its place link (`none` models a missing link or a missing attribute), its
isolated `innerText`, and whether touching the handle raises a stale-element
or another unexpected exception. -/
structure Card where
  nameAttr : Option String
  text : String
  stale : Bool
  fault : Bool

/-- Outcome of `_extract_single_result` on one card. -/
inductive SingleOutcome
  | ok (r : Listing)
  | noRecord
  | staleExn
  | otherExn

/-- Embedding of `_extract_single_result`: a stale handle raises, an
otherwise faulty handle raises, a missing/empty name yields no record, and
otherwise the record is assembled from the field extractors over the card's
isolated text. -/
def extract_single_result (card : Card) (tipo : String) : SingleOutcome :=
  if card.stale then .staleExn
  else if card.fault then .otherExn
  else
    match card.nameAttr with
    | none => .noRecord
    | some nome =>
      if pyStrip nome = "" then .noRecord
      else
        .ok { nome := pyStrip nome
              tipo := tipo
              nota := extract_rating card.text
              avaliacoes := extract_reviews card.text
              endereco := clean_address (extract_address card.text) }

/-- The record produced for a card, if any (exceptions and skips both give
`none`, exactly as seen by the result list). -/
def cardRecord (tipo : String) (card : Card) : Option Listing :=
  match extract_single_result card tipo with
  | .ok r => some r
  | _ => none

/-- The per-card loop of `extract_results`: stop when the result list has
reached the cap, append a record when one is produced, and skip the card on
a `None` result or on a caught per-card exception (both are the `none` case
of `cardRecord`). -/
def extractGo (tipo : String) (maxRes : Nat) : List Card → List Listing → List Listing
  | [], acc => acc
  | card :: rest, acc =>
    if maxRes ≤ acc.length then acc
    else
      match cardRecord tipo card with
      | some r => extractGo tipo maxRes rest (acc ++ [r])
      | none => extractGo tipo maxRes rest acc

/-- Embedding of `extract_results`.  `feedFound = false` models the
`NoSuchElementException`/`WebDriverException` paths, which return the (empty)
accumulated list.  `maxRes` is the configured cap
(`config.MAX_RESULTADOS_POR_TIPO = 20` in this repository). -/
def extract_results (feedFound : Bool) (tipo : String) (maxRes : Nat)
    (cards : List Card) : List Listing :=
  if feedFound then extractGo tipo maxRes cards [] else []

/-! ### Specification-side definitions

These render the spec's words ("the first occurrence of ...", "the first
line matching ...") with index-based first-match search and list
combinators, to be compared with the scanner-based embeddings above. -/

/-- Rating extraction as the spec words it: the first occurrence (smallest
start index) of digit-separator-digit followed, optionally after
whitespace, by an opening parenthesis, normalized to a comma; otherwise the
first digit-separator-digit pair at the start of a line (start of text or
right after a newline); otherwise the sentinel. -/
def rating_spec (text : String) : String :=
  let cs := text.data
  match (List.range (cs.length + 1)).findSome? (fun i => ratingPrimaryAt (cs.drop i)) with
  | some g => ⟨dotToComma g⟩
  | none =>
    match (List.range (cs.length + 1)).findSome? (fun q =>
        if q = 0 ∨ cs.getD (q - 1) ' ' = '\n' then ratingPairAt (cs.drop q) else none) with
    | some g => ⟨dotToComma g⟩
    | none => "N/A"

/-- Review-count extraction as the spec words it: the content of the first
(smallest start index) parenthesized digit-then-digits-and-dots group,
verbatim; otherwise the sentinel. -/
def reviews_spec (text : String) : String :=
  let cs := text.data
  match (List.range (cs.length + 1)).findSome? (fun i => reviewsAt (cs.drop i)) with
  | some g => ⟨g⟩
  | none => "N/A"

/-- Raw address extraction as the spec words it: the first non-empty trimmed
line matching a street-type or postal-code pattern; otherwise, if there are
at least 3 lines, the first of the last 4 lines in reverse order that is
neither an hours/status line nor exactly a rating pair and is longer than
10 characters; otherwise the sentinel. -/
def address_spec (text : String) : String :=
  let lines := cardLines text
  match lines.find? (fun l => addressLineHit l.data) with
  | some l => l
  | none =>
    if 3 ≤ lines.length then
      match (lines.drop (lines.length - 4)).reverse.find? (fun l =>
          !hoursLine l.data && !ratingOnlyLine l.data && decide (10 < l.length)) with
      | some l => l
      | none => "N/A"
    else "N/A"

/-- A well-formed card: live handle, no fault, and a name attribute that is
non-empty after stripping. -/
def goodCard (c : Card) : Prop :=
  c.stale = false ∧ c.fault = false ∧ ∃ n, c.nameAttr = some n ∧ pyStrip n ≠ ""

/-- A concrete well-formed card (used by witnesses). -/
def wCard (n : String) : Card :=
  { nameAttr := some n, text := "", stale := false, fault := false }

/-- A concrete card whose handle raises a stale-element fault (used by
witnesses). -/
def staleCard : Card :=
  { nameAttr := some "Estab", text := "", stale := true, fault := false }

/-! ## Theorems -/

/-! ### Scroll controller (claims C1, C2) -/

/-- Claim C1, as stated, is false: after 1 completed iteration (extent read
100) a read fault in iteration 2 makes `scroll_results` return 0 — not the
1 iteration completed so far, nor the 2 scroll commands issued. -/
theorem scroll_transient_fault_counterexample :
    scroll_results true MAX_SCROLLS (fun _ => false)
        (fun i => if i = 0 then some 100 else none) = 0 ∧
      scroll_results true MAX_SCROLLS (fun _ => false)
        (fun i => if i = 0 then some 100 else none) ≠ 1 ∧
      scroll_results true MAX_SCROLLS (fun _ => false)
        (fun i => if i = 0 then some 100 else none) ≠ 2 := by
  refine ⟨by decide, by decide, by decide⟩

/-- Claim C1 (amended): a transient driver fault while issuing a scroll or
extent-read command is caught — `scroll_results` is total and never
propagates it — but the controller then returns 0, regardless of the number
of iterations already completed. -/
theorem scroll_transient_fault_caught_returns_zero
    (feedFound : Bool) (maxScrolls : Nat)
    (scrollFault : Nat → Bool) (readHeight : Nat → Option Nat)
    (h : scrollLoopAux scrollFault readHeight maxScrolls 0 0 0 = none) :
    scroll_results feedFound maxScrolls scrollFault readHeight = 0 := by
  cases feedFound with
  | false => rfl
  | true => simp only [scroll_results, if_pos, h]

/-- Witness for C1's amended theorem: the fault scenario of the hypothesis,
instantiated concretely (one good iteration, then a faulting extent read). -/
theorem scroll_transient_fault_caught_witness :
    scrollLoopAux (fun _ => false) (fun i => if i = 0 then some 200 else none)
        MAX_SCROLLS 0 0 0 = none ∧
      scroll_results true MAX_SCROLLS (fun _ => false)
        (fun i => if i = 0 then some 200 else none) = 0 :=
  ⟨by decide,
   scroll_transient_fault_caught_returns_zero true MAX_SCROLLS
     (fun _ => false) (fun i => if i = 0 then some 200 else none) (by decide)⟩

/-- Claim C2, as stated, is false: with successive extent reads 100, 250,
250 and the configured maximum of 5 iterations, the controller does not
return 2. -/
theorem scroll_extent_sequence_counterexample :
    scroll_results true MAX_SCROLLS (fun _ => false)
      (fun i => [100, 250, 250][i]?) ≠ 2 := by
  decide

/-- Claim C2 (amended): with successive extent reads 100, 250, 250 and the
configured maximum of 5 iterations, the controller issues exactly 3 scroll
commands — the returned count equals the number of scroll commands issued —
detecting the stall on the 3rd extent read (250 = 250) and stopping early
(3 < 5). -/
theorem scroll_extent_sequence_three_iterations :
    scroll_results true MAX_SCROLLS (fun _ => false)
      (fun i => [100, 250, 250][i]?) = 3 := by
  decide

/-! ### Extraction loop (claims C3, C4) -/

/-- A well-formed card yields a record through `_extract_single_result`. -/
theorem goodCard_record (c : Card) (tipo : String) (h : goodCard c) :
    ∃ r, extract_single_result c tipo = .ok r ∧ cardRecord tipo c = some r := by
  obtain ⟨hs, hf, n, hn, hne⟩ := h
  refine ⟨⟨pyStrip n, tipo, extract_rating c.text, extract_reviews c.text,
    clean_address (extract_address c.text)⟩, ?_, ?_⟩ <;>
    simp [extract_single_result, cardRecord, hs, hf, hn, hne]

/-- A stale card yields no record. -/
theorem staleCard_no_record (c : Card) (tipo : String) (h : c.stale = true) :
    cardRecord tipo c = none := by
  simp [cardRecord, extract_single_result, h]

/-- While the cap cannot be hit, the extraction loop appends exactly the
records of the processed cards. -/
theorem extractGo_under_cap (tipo : String) (maxRes : Nat) :
    ∀ (cards : List Card) (acc : List Listing),
      (cards.filterMap (cardRecord tipo)).length + acc.length ≤ maxRes →
      extractGo tipo maxRes cards acc = acc ++ cards.filterMap (cardRecord tipo) := by
  intro cards
  induction cards with
  | nil => intro acc _; simp [extractGo]
  | cons c rest ih =>
      intro acc hle
      by_cases hb : maxRes ≤ acc.length
      · have h0 : ((c :: rest).filterMap (cardRecord tipo)).length = 0 := by omega
        rw [List.length_eq_zero] at h0
        simp only [extractGo]
        rw [if_pos hb, h0, List.append_nil]
      · cases hcr : cardRecord tipo c with
        | some r =>
            rw [List.filterMap_cons, hcr] at hle ⊢
            have hstep : extractGo tipo maxRes (c :: rest) acc =
                extractGo tipo maxRes rest (acc ++ [r]) := by
              simp only [extractGo]
              rw [if_neg hb, hcr]
            rw [hstep, ih (acc ++ [r]) (by simp at hle ⊢; omega)]
            simp
        | none =>
            rw [List.filterMap_cons, hcr] at hle ⊢
            have hstep : extractGo tipo maxRes (c :: rest) acc =
                extractGo tipo maxRes rest acc := by
              simp only [extractGo]
              rw [if_neg hb, hcr]
            rw [hstep]
            exact ih acc hle

/-- Claim C3: in a sequence of 5 cards where card 3 raises a stale-reference
fault and the others are well formed, the loop skips only card 3 and
returns the records of cards 1, 2, 4, 5, in order — 4 records. -/
theorem extract_results_stale_card_skipped
    (tipo : String) (maxRes : Nat) (c1 c2 c3 c4 c5 : Card)
    (h1 : goodCard c1) (h2 : goodCard c2) (h3 : c3.stale = true)
    (h4 : goodCard c4) (h5 : goodCard c5) (hmax : 4 ≤ maxRes) :
    extract_results true tipo maxRes [c1, c2, c3, c4, c5] =
        [c1, c2, c4, c5].filterMap (cardRecord tipo) ∧
      (extract_results true tipo maxRes [c1, c2, c3, c4, c5]).length = 4 := by
  obtain ⟨r1, -, hr1⟩ := goodCard_record c1 tipo h1
  obtain ⟨r2, -, hr2⟩ := goodCard_record c2 tipo h2
  have hr3 := staleCard_no_record c3 tipo h3
  obtain ⟨r4, -, hr4⟩ := goodCard_record c4 tipo h4
  obtain ⟨r5, -, hr5⟩ := goodCard_record c5 tipo h5
  have hfm : [c1, c2, c3, c4, c5].filterMap (cardRecord tipo) = [r1, r2, r4, r5] := by
    simp [List.filterMap_cons, hr1, hr2, hr3, hr4, hr5]
  have hfm4 : [c1, c2, c4, c5].filterMap (cardRecord tipo) = [r1, r2, r4, r5] := by
    simp [List.filterMap_cons, hr1, hr2, hr4, hr5]
  have hmain : extract_results true tipo maxRes [c1, c2, c3, c4, c5] = [r1, r2, r4, r5] := by
    rw [extract_results, if_pos rfl,
      extractGo_under_cap tipo maxRes [c1, c2, c3, c4, c5] [] (by rw [hfm]; simp; omega)]
    rw [hfm]
    rfl
  rw [hmain, hfm4]
  exact ⟨rfl, rfl⟩

/-- Witness for C3: five concrete cards, card 3 stale, cap 20. -/
theorem extract_results_stale_card_skipped_witness :
    extract_results true "academia" MAX_RESULTADOS_POR_TIPO
        [wCard "A", wCard "B", staleCard, wCard "D", wCard "E"] =
        [wCard "A", wCard "B", wCard "D", wCard "E"].filterMap (cardRecord "academia") ∧
      (extract_results true "academia" MAX_RESULTADOS_POR_TIPO
        [wCard "A", wCard "B", staleCard, wCard "D", wCard "E"]).length = 4 :=
  extract_results_stale_card_skipped "academia" MAX_RESULTADOS_POR_TIPO
    (wCard "A") (wCard "B") staleCard (wCard "D") (wCard "E")
    ⟨rfl, rfl, "A", rfl, by decide⟩ ⟨rfl, rfl, "B", rfl, by decide⟩ rfl
    ⟨rfl, rfl, "D", rfl, by decide⟩ ⟨rfl, rfl, "E", rfl, by decide⟩ (by decide)

/-- With every card well formed, the loop takes exactly the first
`maxRes - acc.length` cards. -/
theorem extractGo_all_good (tipo : String) (maxRes : Nat) :
    ∀ (cards : List Card) (acc : List Listing),
      (∀ c ∈ cards, goodCard c) → acc.length ≤ maxRes →
      extractGo tipo maxRes cards acc =
        acc ++ (cards.take (maxRes - acc.length)).filterMap (cardRecord tipo) := by
  intro cards
  induction cards with
  | nil => intro acc _ _; simp [extractGo]
  | cons c rest ih =>
      intro acc hgood hle
      by_cases hb : maxRes ≤ acc.length
      · have h0 : maxRes - acc.length = 0 := by omega
        simp only [extractGo]
        rw [if_pos hb, h0, List.take_zero, List.filterMap_nil, List.append_nil]
      · obtain ⟨r, -, hcr⟩ := goodCard_record c tipo (hgood c (by simp))
        obtain ⟨k, hk⟩ : ∃ k, maxRes - acc.length = k + 1 := ⟨maxRes - acc.length - 1, by omega⟩
        have hstep : extractGo tipo maxRes (c :: rest) acc =
            extractGo tipo maxRes rest (acc ++ [r]) := by
          simp only [extractGo]
          rw [if_neg hb, hcr]
        rw [hstep, ih (acc ++ [r]) (fun d hd => hgood d (by simp [hd])) (by simp; omega)]
        rw [hk, List.take_succ_cons, List.filterMap_cons, hcr]
        have hk2 : maxRes - (acc ++ [r]).length = k := by simp; omega
        rw [hk2]
        simp

/-- On a list of well-formed cards, every card yields a record. -/
theorem filterMap_all_good_length (tipo : String) :
    ∀ cards : List Card, (∀ c ∈ cards, goodCard c) →
      (cards.filterMap (cardRecord tipo)).length = cards.length := by
  intro cards
  induction cards with
  | nil => intro _; rfl
  | cons c rest ih =>
      intro hgood
      obtain ⟨r, -, hcr⟩ := goodCard_record c tipo (hgood c (by simp))
      rw [List.filterMap_cons, hcr, List.length_cons, List.length_cons,
        ih (fun d hd => hgood d (by simp [hd]))]

/-- Claim C4: with 30 well-formed cards and the configured cap of 20
(`config.MAX_RESULTADOS_POR_TIPO`), the loop stops at 20 records and
produces exactly the records of the first 20 cards, in card order. -/
theorem extract_results_cap_thirty_cards
    (tipo : String) (cards : List Card)
    (hlen : cards.length = 30) (hgood : ∀ c ∈ cards, goodCard c) :
    extract_results true tipo MAX_RESULTADOS_POR_TIPO cards =
        (cards.take MAX_RESULTADOS_POR_TIPO).filterMap (cardRecord tipo) ∧
      (extract_results true tipo MAX_RESULTADOS_POR_TIPO cards).length = 20 := by
  have hmain : extract_results true tipo MAX_RESULTADOS_POR_TIPO cards =
      (cards.take MAX_RESULTADOS_POR_TIPO).filterMap (cardRecord tipo) := by
    rw [extract_results, if_pos rfl, extractGo_all_good tipo _ cards [] hgood (by simp)]
    rfl
  refine ⟨hmain, ?_⟩
  rw [hmain, filterMap_all_good_length tipo _
    (fun c hc => hgood c (List.take_subset _ _ hc))]
  rw [List.length_take, hlen]
  rfl

/-- Witness for C4: thirty copies of a concrete well-formed card. -/
theorem extract_results_cap_thirty_cards_witness :
    extract_results true "academia" MAX_RESULTADOS_POR_TIPO
        (List.replicate 30 (wCard "A")) =
        ((List.replicate 30 (wCard "A")).take MAX_RESULTADOS_POR_TIPO).filterMap
          (cardRecord "academia") ∧
      (extract_results true "academia" MAX_RESULTADOS_POR_TIPO
        (List.replicate 30 (wCard "A"))).length = 20 :=
  extract_results_cap_thirty_cards "academia" (List.replicate 30 (wCard "A"))
    (by decide)
    (fun c hc => by
      rw [List.eq_of_mem_replicate hc]
      exact ⟨rfl, rfl, "A", rfl, by decide⟩)

/-! ### Leftmost-search lemmas (claims C5, C6, C10) -/

/-- Peeling the first index off an index-based first-match search. -/
theorem findSome?_range_succ (f : Nat → Option α) (n : Nat) :
    (List.range (n + 1)).findSome? f =
      match f 0 with
      | some g => some g
      | none => (List.range n).findSome? fun q => f (q + 1) := by
  rw [List.range_succ_eq_map, List.findSome?_cons]
  cases f 0 with
  | some g => rfl
  | none =>
      rw [List.findSome?_map]
      rfl

/-- The suffix scanner computes the index-based first match. -/
theorem scanFirst_eq (f : List Char → Option α) :
    ∀ cs : List Char,
      scanFirst f cs = (List.range (cs.length + 1)).findSome? fun i => f (cs.drop i) := by
  intro cs
  induction cs with
  | nil =>
      rw [scanFirst, findSome?_range_succ]
      simp only [List.drop_zero]
      cases f [] <;> rfl
  | cons c rest ih =>
      rw [List.length_cons, findSome?_range_succ]
      simp only [List.drop_zero, List.drop_succ_cons]
      rw [scanFirst, ih]

/-- Peeling when the first index does not match. -/
theorem findSome?_range_succ_none (f : Nat → Option α) (n : Nat) (h : f 0 = none) :
    (List.range (n + 1)).findSome? f = (List.range n).findSome? fun q => f (q + 1) := by
  rw [findSome?_range_succ, h]

/-- The flag-based fallback scanner at non-start positions finds the first
digit-separator-digit pair sitting right after a newline. -/
theorem findRatingFallback_false_eq :
    ∀ cs : List Char,
      findRatingFallback false cs =
        (List.range (cs.length + 1)).findSome? fun q =>
          if 0 < q ∧ cs.getD (q - 1) ' ' = '\n' then ratingPairAt (cs.drop q) else none := by
  intro cs
  induction cs with
  | nil => simp [findRatingFallback, List.findSome?]
  | cons c rest ih =>
      rw [List.length_cons, findSome?_range_succ_none _ _ (by simp), findSome?_range_succ]
      have hL : findRatingFallback false (c :: rest) =
          (match (if c = '\n' then ratingPairAt rest else none) with
           | some g => some g
           | none => findRatingFallback false rest) := rfl
      rw [hL]
      have h0 : (if 0 < 0 + 1 ∧ (c :: rest).getD (0 + 1 - 1) ' ' = '\n'
          then ratingPairAt ((c :: rest).drop (0 + 1)) else none) =
          (if c = '\n' then ratingPairAt rest else none) := by
        simp
      rw [h0]
      cases hc0 : (if c = '\n' then ratingPairAt rest else none) with
      | some g => rfl
      | none =>
          rw [ih, findSome?_range_succ_none _ _ (by simp)]
          simp only [Nat.add_sub_cancel, List.drop_succ_cons, List.getD_cons_succ,
            Nat.zero_lt_succ, true_and]

/-- The fallback scanner started at the beginning finds the first
digit-separator-digit pair at the start of a line (index 0 or right after a
newline). -/
theorem findRatingFallback_true_eq (cs : List Char) :
    findRatingFallback true cs =
      (List.range (cs.length + 1)).findSome? fun q =>
        if q = 0 ∨ cs.getD (q - 1) ' ' = '\n' then ratingPairAt (cs.drop q) else none := by
  cases cs with
  | nil => decide
  | cons c rest =>
      rw [List.length_cons, findSome?_range_succ]
      have h0 : (if (0 : Nat) = 0 ∨ (c :: rest).getD (0 - 1) ' ' = '\n'
          then ratingPairAt ((c :: rest).drop 0) else none) = ratingPairAt (c :: rest) := by
        simp
      rw [h0]
      have hL : findRatingFallback true (c :: rest) =
          (match ratingPairAt (c :: rest) with
           | some g => some g
           | none =>
             match (if c = '\n' then ratingPairAt rest else none) with
             | some g => some g
             | none => findRatingFallback false rest) := rfl
      rw [hL]
      cases hp0 : ratingPairAt (c :: rest) with
      | some g => rfl
      | none =>
          rw [findRatingFallback_false_eq, findSome?_range_succ_none _ _ (by simp),
            findSome?_range_succ]
          simp only [Nat.succ_ne_zero, false_or, Nat.add_sub_cancel, List.drop_succ_cons,
            List.getD_cons_succ, List.getD_cons_zero, List.drop_zero, Nat.zero_lt_succ,
            true_and]
          cases (if c = '\n' then ratingPairAt rest else none) <;> rfl

/-! ### Rating and review extractors meet the spec (claims C5, C6, C10) -/

/-- Claim C5: for every input text the rating extractor returns the first
digit-separator-digit occurrence followed (optionally after whitespace) by
an opening parenthesis, normalized to a comma; failing that, the first
digit-separator-digit pair at the start of a line, also normalized; failing
that, the sentinel — as rendered by `rating_spec`.  In particular
`"4,5("`-shaped and `"4.5("`-shaped text at the first match yields `"4,5"`. -/
theorem extract_rating_meets_spec :
    (∀ text : String, extract_rating text = rating_spec text) ∧
      extract_rating "4,5(" = "4,5" ∧ extract_rating "4.5(" = "4,5" ∧
      extract_rating "sem nota aqui" = "N/A" := by
  refine ⟨?_, by decide, by decide, by decide⟩
  intro text
  simp only [rating_spec]
  rw [← scanFirst_eq, ← findRatingFallback_true_eq]
  rfl

/-- Claim C6: for every input text the review-count extractor returns the
content of the first parenthesized digit-then-digits-and-dots group,
verbatim (grouping dots preserved), and the sentinel when no such group
exists — as rendered by `reviews_spec`. -/
theorem extract_reviews_meets_spec :
    (∀ text : String, extract_reviews text = reviews_spec text) ∧
      extract_reviews "Academia (1.234) x" = "1.234" ∧
      extract_reviews "sem grupo" = "N/A" := by
  refine ⟨?_, by decide, by decide⟩
  intro text
  simp only [reviews_spec]
  rw [← scanFirst_eq]
  rfl

/-- A successful suffix scan comes from a successful position match. -/
theorem scanFirst_some {f : List Char → Option α} {cs : List Char} {g : α}
    (h : scanFirst f cs = some g) : ∃ l, f l = some g := by
  rw [scanFirst_eq] at h
  obtain ⟨i, -, hi⟩ := List.exists_of_findSome?_eq_some h
  exact ⟨cs.drop i, hi⟩

/-- The capture of the fallback pattern is digit-separator-digit. -/
theorem ratingPairAt_shape :
    ∀ {l g : List Char}, ratingPairAt l = some g →
      ∃ d1 s d2, g = [d1, s, d2] ∧ pyDigit d1 = true ∧ ratingSep s = true ∧
        pyDigit d2 = true := by
  intro l g h
  match l with
  | [] => simp [ratingPairAt] at h
  | [d1] => simp [ratingPairAt] at h
  | [d1, s] => simp [ratingPairAt] at h
  | d1 :: s :: d2 :: rest =>
      rw [ratingPairAt] at h
      by_cases hc : (pyDigit d1 && ratingSep s && pyDigit d2) = true
      · rw [if_pos hc] at h
        injection h with hg
        simp only [Bool.and_eq_true] at hc
        exact ⟨d1, s, d2, hg.symm, hc.1.1, hc.1.2, hc.2⟩
      · rw [if_neg hc] at h
        exact absurd h (by simp)

/-- The capture of the primary pattern is digit-separator-digit. -/
theorem ratingPrimaryAt_shape :
    ∀ {l g : List Char}, ratingPrimaryAt l = some g →
      ∃ d1 s d2, g = [d1, s, d2] ∧ pyDigit d1 = true ∧ ratingSep s = true ∧
        pyDigit d2 = true := by
  intro l g h
  match l with
  | [] => simp [ratingPrimaryAt] at h
  | [d1] => simp [ratingPrimaryAt] at h
  | [d1, s] => simp [ratingPrimaryAt] at h
  | d1 :: s :: d2 :: rest =>
      rw [ratingPrimaryAt] at h
      by_cases hc : (pyDigit d1 && ratingSep s && pyDigit d2) = true
      · rw [if_pos hc] at h
        simp only [Bool.and_eq_true] at hc
        cases hd : rest.dropWhile pySpace with
        | nil => rw [hd] at h; exact absurd h (by simp)
        | cons c0 tail =>
            rw [hd] at h
            by_cases hc0 : c0 = '('
            · subst hc0
              injection h with hg
              exact ⟨d1, s, d2, hg.symm, hc.1.1, hc.1.2, hc.2⟩
            · rw [show (match c0 :: tail with
                | '(' :: _ => some [d1, s, d2]
                | _ => none) = (none : Option (List Char)) from by
                  cases c0 with
                  | mk v hv => simp [hc0]] at h
              exact absurd h (by simp)
      · rw [if_neg hc] at h
        exact absurd h (by simp)

/-- Normalization turns a digit-separator-digit capture into
digit-comma-digit. -/
theorem dotToComma_shape {d1 s d2 : Char}
    (hd1 : pyDigit d1 = true) (hs : ratingSep s = true) (hd2 : pyDigit d2 = true) :
    dotToComma [d1, s, d2] = [d1, ',', d2] := by
  have h1 : (if d1 = '.' then ',' else d1) = d1 := by
    by_cases h : d1 = '.'
    · subst h; exact absurd hd1 (by decide)
    · rw [if_neg h]
  have h2 : (if d2 = '.' then ',' else d2) = d2 := by
    by_cases h : d2 = '.'
    · subst h; exact absurd hd2 (by decide)
    · rw [if_neg h]
  have h3 : (if s = '.' then ',' else s) = ',' := by
    have : s = ',' ∨ s = '.' := by
      simpa [ratingSep] using hs
    cases this with
    | inl h => subst h; rw [if_neg (by decide)]
    | inr h => subst h; rw [if_pos rfl]
  simp only [dotToComma, List.map_cons, List.map_nil, h1, h2, h3]

/-- Claim C10: the rating extractor only ever returns the sentinel `"N/A"`
or a three-character digit-comma-digit string — the fallback path also
normalizes the separator, so the result never contains a dot. -/
theorem extract_rating_shape_invariant (text : String) :
    extract_rating text = "N/A" ∨
      ∃ d1 d2, pyDigit d1 = true ∧ pyDigit d2 = true ∧
        extract_rating text = ⟨[d1, ',', d2]⟩ := by
  rw [extract_rating]
  cases hP : scanFirst ratingPrimaryAt text.data with
  | some g =>
      obtain ⟨l, hl⟩ := scanFirst_some hP
      obtain ⟨d1, s, d2, hg, hd1, hs, hd2⟩ := ratingPrimaryAt_shape hl
      subst hg
      right
      refine ⟨d1, d2, hd1, hd2, ?_⟩
      show (⟨dotToComma [d1, s, d2]⟩ : String) = _
      rw [dotToComma_shape hd1 hs hd2]
  | none =>
      cases hF : findRatingFallback true text.data with
      | some g =>
          have hF' := hF
          rw [findRatingFallback_true_eq] at hF'
          obtain ⟨q, -, hq⟩ := List.exists_of_findSome?_eq_some hF'
          have hpair : ratingPairAt (text.data.drop q) = some g := by
            by_cases hcond : q = 0 ∨ text.data.getD (q - 1) ' ' = '\n'
            · rwa [if_pos hcond] at hq
            · rw [if_neg hcond] at hq; exact absurd hq (by simp)
          obtain ⟨d1, s, d2, hg, hd1, hs, hd2⟩ := ratingPairAt_shape hpair
          subst hg
          right
          refine ⟨d1, d2, hd1, hd2, ?_⟩
          show (⟨dotToComma [d1, s, d2]⟩ : String) = _
          rw [dotToComma_shape hd1 hs hd2]
      | none => left; rfl


/-! ### Raw address extractor meets the spec (claim C7) -/

/-- The first address-pattern loop is a first-match search over the lines. -/
theorem findAddressLine_eq :
    ∀ ls : List String, findAddressLine ls = ls.find? fun l => addressLineHit l.data := by
  intro ls
  induction ls with
  | nil => rfl
  | cons l rest ih =>
      cases hB : addressLineHit l.data with
      | true => simp [findAddressLine, List.find?_cons, hB]
      | false => simp [findAddressLine, List.find?_cons, hB, ih]

/-- The fallback loop with its two `continue`s and its length guard is a
first-match search for the conjunction of the three conditions. -/
theorem fallbackScan_eq :
    ∀ ls : List String,
      fallbackScan ls = ls.find? fun l =>
        !hoursLine l.data && !ratingOnlyLine l.data && decide (10 < l.length) := by
  intro ls
  induction ls with
  | nil => rfl
  | cons l rest ih =>
      cases hH : hoursLine l.data with
      | true => simp [fallbackScan, List.find?_cons, hH, ih]
      | false =>
          cases hR : ratingOnlyLine l.data with
          | true => simp [fallbackScan, List.find?_cons, hH, hR, ih]
          | false =>
              by_cases hL : 10 < l.length
              · simp [fallbackScan, List.find?_cons, hH, hR, hL]
              · simp [fallbackScan, List.find?_cons, hH, hR, hL, ih]

/-- Claim C7: for every input text the raw address extractor returns the
first non-empty trimmed line hitting a street-type or postal-code pattern;
failing that, with at least 3 lines, the first of the last 4 lines in
reverse order that is neither hours/status vocabulary nor exactly a rating
pair and is longer than 10 characters; otherwise the sentinel — as rendered
by `address_spec`. -/
theorem extract_address_meets_spec :
    (∀ text : String, extract_address text = address_spec text) ∧
      extract_address
        "Academia Corpo & Cia\nAcademia · 4,8(321) · Av. Paulista, 1000\nAberto 24 horas" =
        "Academia · 4,8(321) · Av. Paulista, 1000" := by
  refine ⟨?_, by decide⟩
  intro text
  simp only [address_spec]
  rw [← findAddressLine_eq, ← fallbackScan_eq]
  rfl

/-! ### Address normalizer (claims C8, C9) -/

/-- Claim C8: the normalizer moves a leading house number behind the
street-type-and-name with a comma and abbreviates the spelled-out
street-type word: `"564 Rua Pedro Doll"` becomes `"R. Pedro Doll, 564"`. -/
theorem clean_address_inversion_rewrite :
    clean_address "564 Rua Pedro Doll" = "R. Pedro Doll, 564" := by decide

/-- Claim C9, as stated for every string, is false: on `"564 : Rua X"` the
first pass yields `"564 R. X"` (the colon blocks the inversion, and the
abbreviation step then creates a `R.` match), and the second pass rewrites
that to `"R. X, 564"`. -/
theorem clean_address_not_idempotent :
    clean_address (clean_address "564 : Rua X") ≠ clean_address "564 : Rua X" := by
  decide

/-- Claim C9 (amended): the normalizer returns the sentinel `"N/A"`
unchanged and is the identity — hence idempotent — on already-canonical
addresses such as `"R. Pedro Doll, 564"` and `"Av. Paulista, 1000"`;
idempotence does not hold for arbitrary strings. -/
theorem clean_address_sentinel_and_canonical :
    clean_address "N/A" = "N/A" ∧
      clean_address "R. Pedro Doll, 564" = "R. Pedro Doll, 564" ∧
      clean_address (clean_address "R. Pedro Doll, 564") =
        clean_address "R. Pedro Doll, 564" ∧
      clean_address "Av. Paulista, 1000" = "Av. Paulista, 1000" := by
  exact ⟨by decide, by decide, by decide, by decide⟩


end Scraper
